import Mathlib

/-!
A shallow embedding of the hnefatafl-rs core types under verification:
`tiles.rs` (`Tile`, `Axis`, `Tile::from_str`, `Display for Tile`),
`pieces.rs` (`Side`, `PieceType`, `Piece`, `PieceSet`),
`error.rs` (`ParseError`, `PlayError`), and
`game_state.rs` (`ShortPlayRecord`, `RepetitionTracker`).

Rust strings are modelled as lists of bytes (`List Nat`, each element a
`u8` value), because `Tile::from_str` works on `s.as_bytes()`.  Rust `u8`
arithmetic that can underflow or overflow (which panics under debug
assertions) is modelled with `Option`: a `none` marks the panic.
-/

deriving instance DecidableEq for Except

namespace Hnefatafl

/-- `tiles.rs`: `Tile { row: u8, col: u8 }`.  The fields are modelled as
`Nat`; all constructors under study produce values below 256. -/
structure Tile where
  row : Nat
  col : Nat
deriving DecidableEq, Repr

/-- `tiles.rs`: `enum Axis { Vertical, Horizontal }`. -/
inductive Axis where
  | Vertical
  | Horizontal
deriving DecidableEq, Repr

/-- Modelled from the spec: `play.rs` is not under `src/`.  Spec section 3:
"Play: (from, axis, signed displacement); invariant displacement ≠ 0".
The `from` field is named `origin` because `from` is a Lean keyword.
Only structural equality of plays is used by the repetition tracker. -/
structure Play where
  origin : Tile
  axis : Axis
  displacement : Int
deriving DecidableEq, Repr

/-- `error.rs`: `enum PlayError`. -/
inductive PlayError where
  | DisjointTiles
deriving DecidableEq, Repr

/-- `error.rs`: `enum ParseError`.  `BadChar` carries the offending byte
reinterpreted as a character (`byte as char` in the source), modelled as
the byte value.  `BadInt` wraps Rust's opaque `ParseIntError`, whose
payload is dropped here.  `BadString` carries the input bytes. -/
inductive ParseError where
  | BadStringLen (n : Nat)
  | BadLineLen (n : Nat)
  | BadChar (c : Nat)
  | EmptyString
  | BadInt
  | BadPlay (e : PlayError)
  | BadString (s : List Nat)
deriving DecidableEq, Repr

/-- Whether a byte is an ASCII decimal digit. -/
def isDigitByte (b : Nat) : Bool :=
  48 ≤ b && b ≤ 57

/-- The value of a big-endian list of ASCII digit bytes, accumulated left
to right exactly as Rust's integer parser does. -/
def digitsVal (cs : List Nat) : Nat :=
  cs.foldl (fun a c => a * 10 + (c - 48)) 0

/-- Core of Rust's `str::parse::<u8>` after the optional sign: one or
more ASCII digits whose value fits in a `u8`.  `none` models a
`ParseIntError` (empty input, a non-digit, or overflow past 255). -/
def parseU8Core (cs : List Nat) : Option Nat :=
  if cs ≠ [] ∧ cs.all isDigitByte then
    if digitsVal cs ≤ 255 then some (digitsVal cs) else none
  else none

/-- Rust's `str::parse::<u8>` on a byte string: an optional single
leading `+` (byte 43) followed by one or more ASCII digits, value at most
255. -/
def parseU8 (cs : List Nat) : Option Nat :=
  match cs with
  | c :: rest => if c = 43 then parseU8Core rest else parseU8Core cs
  | [] => none

/-- `tiles.rs`: `impl FromStr for Tile`.  The input is the byte string of
the Rust `&str`.  The source reads the first byte, demands a lowercase
ASCII letter (bytes 97..=122, else `BadChar`, or `EmptyString` when there
is no byte), then evaluates `s[1..].parse::<u8>()? - 1` for the row.
The subtraction is `u8` arithmetic: when the parsed row is 0 it
underflows, which panics under debug assertions; the outer `none` models
exactly that underflow.  Every other path yields `some` of the Rust
`Result`. -/
def tileFromStr (s : List Nat) : Option (Except ParseError Tile) :=
  match s with
  | [] => some (.error .EmptyString)
  | byte :: rest =>
    if 97 ≤ byte ∧ byte ≤ 122 then
      match parseU8 rest with
      | none => some (.error .BadInt)
      | some n => if n = 0 then none else some (.ok ⟨n - 1, byte - 97⟩)
    else some (.error (.BadChar byte))

/-- Fuel-driven rendering of a natural number's decimal digits as ASCII
bytes, most significant first, accumulator style.  The fuel is always
supplied large enough (see `natDecimalBytes`) so the recursion mirrors
ordinary decimal formatting. -/
def natDecimalBytesAux : Nat → Nat → List Nat → List Nat
  | 0, _, acc => acc
  | fuel + 1, n, acc =>
    if n < 10 then (48 + n) :: acc
    else natDecimalBytesAux fuel (n / 10) ((48 + n % 10) :: acc)

/-- The decimal representation of a natural number as ASCII digit bytes,
as Rust's `Display` for integers produces it (no sign, no leading
zeros, a single `0` for zero). -/
def natDecimalBytes (n : Nat) : List Nat :=
  natDecimalBytesAux (n + 1) n []

/-- UTF-8 encoding of a Unicode scalar value below 256, as Rust's
`write!` emits a `char` obtained from `u8 as char`. -/
def charUtf8 (c : Nat) : List Nat :=
  if c ≤ 127 then [c] else [192 + c / 64, 128 + c % 64]

/-- `tiles.rs`: `impl Display for Tile`, producing the byte string of
`format!("{}{}", (col + 97) as char, row + 1)`.  Both `col + 97` and
`row + 1` are `u8` additions; when either exceeds 255 the addition
overflows, which panics under debug assertions — modelled by `none`. -/
def tileToString (t : Tile) : Option (List Nat) :=
  if t.col + 97 ≤ 255 ∧ t.row + 1 ≤ 255 then
    some (charUtf8 (t.col + 97) ++ natDecimalBytes (t.row + 1))
  else none

/-- `pieces.rs`: `enum Side { Attacker = 0, Defender = 8 }`. -/
inductive Side where
  | Attacker
  | Defender
deriving DecidableEq, Repr

/-- `pieces.rs`: the discriminant of `Side`, used as a shift amount in
`PieceSet` masks. -/
def sideVal : Side → Nat
  | .Attacker => 0
  | .Defender => 8

/-- `pieces.rs`: `Side::other`. -/
def Side.other : Side → Side
  | .Attacker => .Defender
  | .Defender => .Attacker

/-- `pieces.rs`: `enum PieceType` with bit-flag discriminants. -/
inductive PieceType where
  | King
  | Soldier
  | Knight
  | Commander
  | Guard
  | Mercenary
deriving DecidableEq, Repr

/-- `pieces.rs`: the discriminant of `PieceType` (`King = 0x01`,
`Soldier = 0x02`, `Knight = 0x04`, `Commander = 0x08`, `Guard = 0x10`,
`Mercenary = 0x20`). -/
def pieceTypeVal : PieceType → Nat
  | .King => 1
  | .Soldier => 2
  | .Knight => 4
  | .Commander => 8
  | .Guard => 16
  | .Mercenary => 32

/-- `pieces.rs`: `struct Piece { piece_type: PieceType, side: Side }`. -/
structure Piece where
  piece_type : PieceType
  side : Side
deriving DecidableEq, Repr

/-- `pieces.rs`: `Piece::new`. -/
def Piece.new (piece_type : PieceType) (side : Side) : Piece :=
  ⟨piece_type, side⟩

/-- `pieces.rs`: `Piece::king`. -/
def Piece.king : Piece :=
  ⟨.King, .Defender⟩

/-- `pieces.rs`: `Piece::attacker`. -/
def Piece.attacker (piece_type : PieceType) : Piece :=
  ⟨piece_type, .Attacker⟩

/-- `pieces.rs`: `Piece::defender`. -/
def Piece.defender (piece_type : PieceType) : Piece :=
  ⟨piece_type, .Defender⟩

/-- `pieces.rs`: `impl TryFrom<char> for Piece`.  The source first tests
Rust's Unicode `char::is_alphabetic`; this model tests ASCII
`Char.isAlpha` instead, which agrees on every outcome: a non-ASCII
alphabetic character falls through the source's final `match` to
`BadChar(value)`, exactly the error this model returns at the first
test.  `is_ascii_uppercase` is `Char.isUpper` (both are ASCII `A..Z`),
and only an ASCII uppercase letter is lowercased before the match. -/
def pieceTryFromChar (value : Char) : Except ParseError Piece :=
  if ¬ value.isAlpha then .error (.BadChar value.toNat)
  else
    let side : Side := if value.isUpper then .Defender else .Attacker
    let v := if value.isUpper then value.toLower else value
    if v = 't' then .ok (Piece.new .Soldier side)
    else if v = 'k' then .ok (Piece.new .King side)
    else if v = 'n' then .ok (Piece.new .Knight side)
    else if v = 'c' then .ok (Piece.new .Commander side)
    else if v = 'g' then .ok (Piece.new .Guard side)
    else if v = 'm' then .ok (Piece.new .Mercenary side)
    else .error (.BadChar v.toNat)

/-- `pieces.rs`: `struct PieceSet(u16)`.  The `u16` is modelled as a
`Nat`; every operation below keeps the value under 2^16. -/
structure PieceSet where
  val : Nat
deriving DecidableEq, Repr

/-- `pieces.rs`: `PieceSet::get_mask` — the bitmask of one piece type,
for one side (`piece_type << side`) or for both sides. -/
def PieceSet.get_mask (piece_type : PieceType) (side : Option Side) : Nat :=
  match side with
  | some s => pieceTypeVal piece_type <<< sideVal s
  | none => pieceTypeVal piece_type ||| (pieceTypeVal piece_type <<< 8)

/-- `pieces.rs`: `PieceSet::from_piece_types`, a fold of
`acc | piece_type | (piece_type << 8)` over the given types. -/
def PieceSet.from_piece_types (piece_types : List PieceType) : PieceSet :=
  ⟨piece_types.foldl
    (fun acc pt => acc ||| pieceTypeVal pt ||| (pieceTypeVal pt <<< 8)) 0⟩

/-- `pieces.rs`: `PieceSet::set_piece`. -/
def PieceSet.set_piece (ps : PieceSet) (piece : Piece) : PieceSet :=
  ⟨ps.val ||| PieceSet.get_mask piece.piece_type (some piece.side)⟩

/-- `pieces.rs`: `PieceSet::unset_piece`; Rust's `!mask` on `u16` is
`mask XOR 0xFFFF`. -/
def PieceSet.unset_piece (ps : PieceSet) (piece : Piece) : PieceSet :=
  ⟨ps.val &&& (65535 ^^^ PieceSet.get_mask piece.piece_type (some piece.side))⟩

/-- `pieces.rs`: `PieceSet::contains`: `self.0 & mask > 0`. -/
def PieceSet.contains (ps : PieceSet) (piece : Piece) : Bool :=
  0 < ps.val &&& PieceSet.get_mask piece.piece_type (some piece.side)

/-- `game_state.rs`: `struct ShortPlayRecord`. -/
structure ShortPlayRecord where
  side : Side
  play : Play
  captures : Bool
deriving DecidableEq, Repr

/-- Modelled from the spec: `utils.rs` (declaring `FixedSizeQueue`) is
not under `src/`.  Spec sections 3 and 4.6 describe it, as used at
`FixedSizeQueue<Option<ShortPlayRecord>, 4>`, as "a single shared 4-slot
history across both sides": a fixed 4-slot ring into which every record
is pushed, "evicting the oldest", with `first` returning "the oldest of
the last 4 tracked plays".  Slot `s0` is the oldest, `s3` the newest. -/
structure FixedSizeQueue4 (α : Type) where
  s0 : α
  s1 : α
  s2 : α
  s3 : α
deriving DecidableEq, Repr

/-- Modelled from the spec: the oldest entry of the 4-slot ring. -/
def FixedSizeQueue4.first (q : FixedSizeQueue4 α) : α :=
  q.s0

/-- Modelled from the spec: push a record into the 4-slot ring, evicting
the oldest. -/
def FixedSizeQueue4.push (q : FixedSizeQueue4 α) (x : α) : FixedSizeQueue4 α :=
  ⟨q.s1, q.s2, q.s3, x⟩

/-- `game_state.rs`: `struct RepetitionTracker`. -/
structure RepetitionTracker where
  attacker_reps : Nat
  defender_reps : Nat
  attacker_mid_pair : Bool
  defender_mid_pair : Bool
  recent_plays : FixedSizeQueue4 (Option ShortPlayRecord)
deriving DecidableEq, Repr

/-- `game_state.rs`: `RepetitionTracker::default()` (all counters zero,
both flags false, the ring filled with `None`). -/
def defaultTracker : RepetitionTracker :=
  ⟨0, 0, false, false, ⟨none, none, none, none⟩⟩

/-- `game_state.rs`: `RepetitionTracker::is_mid_pair`. -/
def RepetitionTracker.is_mid_pair (t : RepetitionTracker) (side : Side) : Bool :=
  match side with
  | .Attacker => t.attacker_mid_pair
  | .Defender => t.defender_mid_pair

/-- `game_state.rs`: `RepetitionTracker::toggle_mid_pair`. -/
def RepetitionTracker.toggle_mid_pair (t : RepetitionTracker) (side : Side) :
    RepetitionTracker :=
  match side with
  | .Attacker => { t with attacker_mid_pair := !t.attacker_mid_pair }
  | .Defender => { t with defender_mid_pair := !t.defender_mid_pair }

/-- `game_state.rs`: `RepetitionTracker::check_repetition`.  The Rust
method mutates `self` (it toggles the mover's mid-pair flag on the match
branch) and returns `(increment?, reset?)`; here the updated tracker is
returned alongside the two booleans. -/
def RepetitionTracker.check_repetition (t : RepetitionTracker)
    (record : ShortPlayRecord) : RepetitionTracker × Bool × Bool :=
  if record.captures = false ∧ some record = t.recent_plays.first then
    let is_rep := !t.is_mid_pair record.side
    (t.toggle_mid_pair record.side, is_rep, false)
  else
    (t, false, true)

/-- `game_state.rs`: `RepetitionTracker::get_repetitions`. -/
def RepetitionTracker.get_repetitions (t : RepetitionTracker) (side : Side) : Nat :=
  match side with
  | .Attacker => t.attacker_reps
  | .Defender => t.defender_reps

/-- `game_state.rs`: `RepetitionTracker::track_play`. -/
def RepetitionTracker.track_play (t : RepetitionTracker) (side : Side)
    (play : Play) (captures : Bool) : RepetitionTracker :=
  let record : ShortPlayRecord := ⟨side, play, captures⟩
  let res := t.check_repetition record
  let t1 := res.1
  let incr := res.2.1
  let reset := res.2.2
  let t2 :=
    if incr then
      match record.side with
      | .Attacker => { t1 with attacker_reps := t1.attacker_reps + 1 }
      | .Defender => { t1 with defender_reps := t1.defender_reps + 1 }
    else if reset then
      match record.side with
      | .Attacker => { t1 with attacker_reps := 0, attacker_mid_pair := false }
      | .Defender => { t1 with defender_reps := 0, defender_mid_pair := false }
    else t1
  { t2 with recent_plays := t2.recent_plays.push (some record) }

/-- The step machine of spec section 4.6, written from the spec's words:
reset the mover's counter and mid-pair flag when the play captures or the
record differs from the oldest ring entry; otherwise increment the
counter and set the flag when the flag is clear, or leave the counter and
clear the flag when it is set; always push the record, evicting the
oldest. -/
def trackPlaySpecStep (t : RepetitionTracker) (side : Side) (play : Play)
    (captures : Bool) : RepetitionTracker :=
  let record : ShortPlayRecord := ⟨side, play, captures⟩
  let t1 :=
    if captures = true ∨ some record ≠ t.recent_plays.first then
      match side with
      | .Attacker => { t with attacker_reps := 0, attacker_mid_pair := false }
      | .Defender => { t with defender_reps := 0, defender_mid_pair := false }
    else if t.is_mid_pair side = false then
      match side with
      | .Attacker => { t with attacker_reps := t.attacker_reps + 1,
                              attacker_mid_pair := true }
      | .Defender => { t with defender_reps := t.defender_reps + 1,
                              defender_mid_pair := true }
    else
      match side with
      | .Attacker => { t with attacker_mid_pair := false }
      | .Defender => { t with defender_mid_pair := false }
  { t1 with recent_plays := t1.recent_plays.push (some record) }

/-- The play `a1-b1` of the repetition test: origin row 0 column 0,
horizontal, displacement 1. -/
def playA1 : Play :=
  ⟨⟨0, 0⟩, .Horizontal, 1⟩

/-- The play `a2-b2` of the repetition test. -/
def playD1 : Play :=
  ⟨⟨1, 0⟩, .Horizontal, 1⟩

/-- The play `b1-a1` of the repetition test. -/
def playA2 : Play :=
  ⟨⟨0, 1⟩, .Horizontal, -1⟩

/-- The play `b2-a2` of the repetition test. -/
def playD2 : Play :=
  ⟨⟨1, 1⟩, .Horizontal, -1⟩

/-- The play `f1-g1`, disjoint from the four-play cycle. -/
def playF : Play :=
  ⟨⟨0, 5⟩, .Horizontal, 1⟩

/-- One full cycle of the four non-capturing plays (Attacker `a1-b1`,
Defender `a2-b2`, Attacker `b1-a1`, Defender `b2-a2`). -/
def fourPlayCycle (t : RepetitionTracker) : RepetitionTracker :=
  (((t.track_play .Attacker playA1 false).track_play .Defender playD1
      false).track_play .Attacker playA2 false).track_play .Defender playD2 false

/-- The ring contents reached at the end of every full four-play cycle. -/
def steadyRing : FixedSizeQueue4 (Option ShortPlayRecord) :=
  ⟨some ⟨.Attacker, playA1, false⟩, some ⟨.Defender, playD1, false⟩,
   some ⟨.Attacker, playA2, false⟩, some ⟨.Defender, playD2, false⟩⟩

/-- Whether a byte string is the canonical decimal form of a positive
number: nonempty, all ASCII digits, leading digit not `0` (which also
excludes a leading `+`). -/
def isCanonicalRow (cs : List Nat) : Bool :=
  match cs with
  | [] => false
  | c :: rest => (c :: rest).all isDigitByte && decide (c ≠ 48)

/-- The piece set built by `PieceSet::from_piece_types([King, Soldier,
Guard])`. -/
def kingSoldierGuard : PieceSet :=
  PieceSet.from_piece_types [.King, .Soldier, .Guard]

/-- `kingSoldierGuard` after `unset_piece(Piece::new(King, Attacker))`. -/
def kingSoldierGuardNoAK : PieceSet :=
  kingSoldierGuard.unset_piece (Piece.new .King .Attacker)

/-!
Supporting lemmas: decimal rendering inverts decimal parsing.
-/

set_option maxRecDepth 4000 in
/-- Parsing the canonical decimal rendering of a `u8` value recovers it. -/
lemma parseU8_natDecimalBytes : ∀ n < 256, 1 ≤ n → parseU8 (natDecimalBytes n) = some n := by
  decide

/-- A successful `u8` parse yields a value of at most 255. -/
lemma parseU8_le {cs : List Nat} {n : Nat} (h : parseU8 cs = some n) : n ≤ 255 := by
  unfold parseU8 parseU8Core at h
  rcases cs with _ | ⟨c, rest⟩
  · simp_all
  · simp_all
    split_ifs at h <;> simp_all

/-- The digit-accumulating fold never decreases its accumulator. -/
lemma foldl_digits_ge (cs : List Nat) :
    ∀ a : Nat, a ≤ cs.foldl (fun x c => x * 10 + (c - 48)) a := by
  induction cs with
  | nil => intro a; simp
  | cons c rest ih =>
    intro a
    have h := ih (a * 10 + (c - 48))
    simp only [List.foldl_cons]
    omega

/-- Four or more digits with a nonzero leading digit are worth at least
1000, hence overflow a `u8`. -/
lemma digitsVal_four_ge (c0 c1 c2 c3 : Nat) (tl : List Nat) (h : 49 ≤ c0) :
    1000 ≤ digitsVal (c0 :: c1 :: c2 :: c3 :: tl) := by
  have h4 := foldl_digits_ge tl
    ((((0 * 10 + (c0 - 48)) * 10 + (c1 - 48)) * 10 + (c2 - 48)) * 10 + (c3 - 48))
  simp only [digitsVal, List.foldl_cons]
  omega

/-- Decimal rendering of a one-digit positive value. -/
lemma natDecimalBytes_one_digit : ∀ i < 10, 1 ≤ i → natDecimalBytes i = [48 + i] := by
  decide

/-- Decimal rendering of a two-digit value. -/
lemma natDecimalBytes_two_digits :
    ∀ i < 10, ∀ j < 10, 1 ≤ i → natDecimalBytes (i * 10 + j) = [48 + i, 48 + j] := by
  decide

set_option maxRecDepth 8000 in
/-- Decimal rendering of a three-digit value. -/
lemma natDecimalBytes_three_digits :
    ∀ i < 10, ∀ j < 10, ∀ k < 10, 1 ≤ i →
      natDecimalBytes (i * 100 + j * 10 + k) = [48 + i, 48 + j, 48 + k] := by
  decide

/-- Rendering the value of a canonical digit string (nonempty, all
digits, leading digit nonzero) that fits in a `u8` gives the string
back. -/
lemma natDecimalBytes_digitsVal : ∀ (cs : List Nat), isCanonicalRow cs = true →
    digitsVal cs ≤ 255 → natDecimalBytes (digitsVal cs) = cs := by
  intro cs hcanon hle
  match cs with
  | [] => simp [isCanonicalRow] at hcanon
  | [c] =>
    simp [isCanonicalRow, isDigitByte] at hcanon
    have hv : digitsVal [c] = c - 48 := by simp [digitsVal]
    rw [hv, natDecimalBytes_one_digit (c - 48) (by omega) (by omega)]
    congr 1
    omega
  | [c, b] =>
    simp [isCanonicalRow, isDigitByte] at hcanon
    have hv : digitsVal [c, b] = (c - 48) * 10 + (b - 48) := by
      simp [digitsVal]
    rw [hv, natDecimalBytes_two_digits (c - 48) (by omega) (b - 48) (by omega) (by omega)]
    congr 1
    · omega
    · congr 1
      omega
  | [c, b, e] =>
    simp [isCanonicalRow, isDigitByte] at hcanon
    have hv : digitsVal [c, b, e] = (c - 48) * 100 + (b - 48) * 10 + (e - 48) := by
      simp [digitsVal]
      ring
    rw [hv, natDecimalBytes_three_digits (c - 48) (by omega) (b - 48) (by omega)
      (e - 48) (by omega) (by omega)]
    congr 1
    · omega
    · congr 1
      · omega
      · congr 1
        omega
  | c0 :: c1 :: c2 :: c3 :: tl =>
    exfalso
    simp [isCanonicalRow, isDigitByte] at hcanon
    have := digitsVal_four_ge c0 c1 c2 c3 tl (by omega)
    omega

/-- A canonical digit string that `parse::<u8>` accepts is the decimal
rendering of the (positive) value parsed. -/
lemma parseU8_canonical {cs : List Nat} {n : Nat} (hcanon : isCanonicalRow cs = true)
    (hp : parseU8 cs = some n) : natDecimalBytes n = cs ∧ 1 ≤ n := by
  rcases cs with _ | ⟨c, rest⟩
  · simp [isCanonicalRow] at hcanon
  · have hc : 49 ≤ c ∧ c ≤ 57 := by
      simp [isCanonicalRow, isDigitByte] at hcanon
      omega
    have hne : ¬ c = 43 := by omega
    rw [parseU8, if_neg hne] at hp
    have hval : n = digitsVal (c :: rest) ∧ digitsVal (c :: rest) ≤ 255 := by
      unfold parseU8Core at hp
      split_ifs at hp <;> simp_all
    have hone : 1 ≤ digitsVal (c :: rest) := by
      have := foldl_digits_ge rest (0 * 10 + (c - 48))
      simp only [digitsVal, List.foldl_cons]
      omega
    refine ⟨?_, by omega⟩
    rw [hval.1, natDecimalBytes_digitsVal (c :: rest) hcanon hval.2]

/-!
Supporting lemmas: the repetition cycle of the included test.
-/

/-- One full four-play cycle from the default tracker leaves both
counters at 0, both flags clear, and the ring holding the cycle. -/
lemma fourPlayCycle_default : fourPlayCycle defaultTracker = ⟨0, 0, false, false, steadyRing⟩ := by
  decide

/-- From any state whose ring holds the cycle and whose flags are clear,
one further full cycle increments both counters once. -/
lemma fourPlayCycle_steady (a d : Nat) :
    fourPlayCycle ⟨a, d, false, false, steadyRing⟩ =
      ⟨a + 1, d + 1, false, false, steadyRing⟩ := rfl

/-- The tracker state after `k ≥ 1` full four-play cycles from the
default tracker. -/
lemma fourPlayCycle_iterate : ∀ k, 1 ≤ k →
    fourPlayCycle^[k] defaultTracker = ⟨k - 1, k - 1, false, false, steadyRing⟩ := by
  intro k hk
  induction k with
  | zero => omega
  | succ n ih =>
    rcases Nat.eq_zero_or_pos n with hn | hn
    · subst hn
      simpa using fourPlayCycle_default
    · rw [Function.iterate_succ_apply', ih hn, fourPlayCycle_steady]
      congr 1 <;> omega

/-!
The claims.
-/

/-- Claim C1: `RepetitionTracker::track_play(side, play, captures)`
implements exactly the step machine of spec section 4.6 — reset the
mover's counter and mid-pair flag when `captures` is true or the record
differs from the oldest ring entry; otherwise increment and set the flag
when the flag is clear, or leave the counter and clear the flag when it
is set; always push the record, evicting the oldest — quantified over
every tracker state (in particular every reachable one) and every
input. -/
theorem trackPlay_implements_spec_step (t : RepetitionTracker) (side : Side)
    (play : Play) (captures : Bool) :
    t.track_play side play captures = trackPlaySpecStep t side play captures := by
  rcases t with ⟨a, d, am, dm, q⟩
  rcases eq_or_ne (some (⟨side, play, captures⟩ : ShortPlayRecord))
    (FixedSizeQueue4.first q) with h | h <;>
  cases side <;> cases captures <;> cases am <;> cases dm <;>
  simp_all [RepetitionTracker.track_play, trackPlaySpecStep,
    RepetitionTracker.check_repetition, RepetitionTracker.is_mid_pair,
    RepetitionTracker.toggle_mid_pair]

/-- Claim C2: starting from a default `RepetitionTracker`, tracking the
four non-capturing plays (Attacker `a1-b1`, Defender `a2-b2`, Attacker
`b1-a1`, Defender `b2-a2`) for `k ≥ 1` full cycles leaves
`get_repetitions` equal to `k - 1` for both sides. -/
theorem repetitions_after_full_cycles (k : Nat) (hk : 1 ≤ k) :
    (fourPlayCycle^[k] defaultTracker).get_repetitions .Attacker = k - 1 ∧
    (fourPlayCycle^[k] defaultTracker).get_repetitions .Defender = k - 1 := by
  rw [fourPlayCycle_iterate k hk]
  exact ⟨rfl, rfl⟩

/-- Claim C2 witness: after three full cycles both counters read 2. -/
theorem repetitions_after_full_cycles_witness :
    1 ≤ 3 ∧
    ((fourPlayCycle^[3] defaultTracker).get_repetitions .Attacker = 3 - 1 ∧
     (fourPlayCycle^[3] defaultTracker).get_repetitions .Defender = 3 - 1) :=
  ⟨by decide, repetitions_after_full_cycles 3 (by decide)⟩

/-- Claim C3 counterexample: from the reachable tracker state after two
full four-play cycles (both counters at 1), the single non-capturing,
non-matching play Attacker `f1-g1` leaves the Defender counter at 1, not
0 — a single such call does not reset both counters. -/
theorem nonmatching_play_leaves_opponent_counter :
    some (⟨.Attacker, playF, false⟩ : ShortPlayRecord) ≠
      (fourPlayCycle (fourPlayCycle defaultTracker)).recent_plays.first ∧
    ((fourPlayCycle (fourPlayCycle defaultTracker)).track_play .Attacker playF
        false).get_repetitions .Defender = 1 := by
  decide

/-- Claim C3 as amended: for every tracker state (in particular every
reachable one), a single `track_play` with a non-capturing play whose
record does not match the oldest ring entry resets the mover's counter
to 0 and leaves the opposite side's counter unchanged (so both counters
are 0 only after each side in turn has made such a play). -/
theorem nonmatching_play_resets_mover_counter (t : RepetitionTracker)
    (side : Side) (play : Play)
    (h : some (⟨side, play, false⟩ : ShortPlayRecord) ≠ t.recent_plays.first) :
    (t.track_play side play false).get_repetitions side = 0 ∧
    (t.track_play side play false).get_repetitions side.other =
      t.get_repetitions side.other := by
  rcases t with ⟨a, d, am, dm, q⟩
  cases side <;>
  simp_all [RepetitionTracker.track_play, RepetitionTracker.check_repetition,
    RepetitionTracker.get_repetitions, Side.other]

/-- Claim C3 witness: the Attacker playing `a1-b1` on the default
tracker (whose ring is empty, so nothing matches) ends with the Attacker
counter at 0 and the Defender counter untouched. -/
theorem nonmatching_play_resets_mover_counter_witness :
    some (⟨.Attacker, playA1, false⟩ : ShortPlayRecord) ≠
      defaultTracker.recent_plays.first ∧
    ((defaultTracker.track_play .Attacker playA1 false).get_repetitions .Attacker = 0 ∧
     (defaultTracker.track_play .Attacker playA1 false).get_repetitions
        Side.Attacker.other = defaultTracker.get_repetitions Side.Attacker.other) :=
  ⟨by decide, nonmatching_play_resets_mover_counter defaultTracker .Attacker playA1 (by decide)⟩

/-- Claim C4: evaluation of `Tile::from_str` at the failing input `"a0"`
(bytes `[97, 48]`): the row part parses to 0 and the `u8` subtraction
`0 - 1` underflows (`none`), so the function is not panic-free on every
input, contradicting the spec's "never fatal". -/
theorem tileFromStr_underflows_on_a0 : tileFromStr [97, 48] = none := by
  decide

/-- Claim C7: evaluation of the classification of `Tile::from_str` on
concrete inputs — empty input gives `EmptyString`; `"[53"` gives
`BadChar('[')`; `"a!!"` gives `BadInt`; `"a8"` gives row 7, column 0.
But on `"a0"` the integer parse succeeds with 0 (`parseU8 [48] = some
0`) and the code then underflows instead of storing a 0-based row, so
the claimed classification does not cover every input. -/
theorem tileFromStr_classification_samples :
    tileFromStr [] = some (.error .EmptyString) ∧
    tileFromStr [91, 53, 51] = some (.error (.BadChar 91)) ∧
    tileFromStr [97, 33, 33] = some (.error .BadInt) ∧
    tileFromStr [97, 56] = some (.ok ⟨7, 0⟩) ∧
    parseU8 [48] = some 0 ∧
    tileFromStr [97, 48] = none := by
  decide

/-- Claim C5 counterexample: `from_str` accepts `"a01"` (bytes
`[97, 48, 49]`), producing the tile of `"a1"`, whose `to_string` is
`"a1"` (bytes `[97, 49]`) — not the original string, so `to_string ∘
from_str` is not the identity on all accepted strings. -/
theorem roundtrip_fails_on_leading_zero :
    tileFromStr [97, 48, 49] = some (.ok ⟨0, 0⟩) ∧
    tileToString ⟨0, 0⟩ = some [97, 49] ∧
    ([97, 49] : List Nat) ≠ [97, 48, 49] := by
  decide

/-- Claim C5 as amended: for every string on which `Tile::from_str`
succeeds and whose row part is in canonical decimal form (nonempty, all
digits, no leading zero — which also excludes a leading `+`), converting
the resulting tile back with `to_string` returns exactly the input
string. -/
theorem toString_of_fromStr_canonical (b : Nat) (rest : List Nat) (t : Tile)
    (hparse : tileFromStr (b :: rest) = some (Except.ok t))
    (hcanon : isCanonicalRow rest = true) :
    tileToString t = some (b :: rest) := by
  by_cases hb : 97 ≤ b ∧ b ≤ 122
  · rcases hp : parseU8 rest with _ | n
    · simp [tileFromStr, hb, hp] at hparse
    · obtain ⟨hnd, hn1⟩ := parseU8_canonical hcanon hp
      have hn255 : n ≤ 255 := parseU8_le hp
      have ht : t = ⟨n - 1, b - 97⟩ := by
        simp [tileFromStr, hb, hp, Nat.pos_iff_ne_zero.mp hn1] at hparse
        exact hparse.symm
      subst ht
      have h1 : b - 97 + 97 ≤ 255 := by omega
      have h2 : n - 1 + 1 ≤ 255 := by omega
      have h3 : b - 97 + 97 ≤ 127 := by omega
      simp only [tileToString, charUtf8, h1, h2, h3, and_self, if_true, if_pos]
      rw [show b - 97 + 97 = b by omega, show n - 1 + 1 = n by omega, hnd]
      rfl
  · simp [tileFromStr, hb] at hparse

/-- Claim C5 witness: `"a8"` parses to row 7 column 0, its row part `8`
is canonical, and the tile renders back to `"a8"`. -/
theorem toString_of_fromStr_canonical_witness :
    tileFromStr [97, 56] = some (Except.ok ⟨7, 0⟩) ∧
    isCanonicalRow [56] = true ∧
    tileToString ⟨7, 0⟩ = some [97, 56] :=
  ⟨by decide, by decide,
    toString_of_fromStr_canonical 97 [56] ⟨7, 0⟩ (by decide) (by decide)⟩

/-- Claim C6 counterexample: the tile with row 0, column 26 — a
perfectly constructible `Tile` — renders as `"{1"` (bytes `[123, 49]`),
which re-parses to `BadChar('{')`, not to the tile, so `from_str ∘
to_string` does not recover every `Tile`. -/
theorem roundtrip_fails_on_column_26 :
    tileToString ⟨0, 26⟩ = some [123, 49] ∧
    tileFromStr [123, 49] = some (.error (.BadChar 123)) := by
  decide

/-- Claim C6 as amended: for every `Tile` whose column is at most 25
(so the rendered letter is `a`..`z`) and whose row is at most 254 (so
`row + 1` fits in a `u8`), rendering with `Display` and parsing back
recovers the tile exactly. -/
theorem fromStr_of_toString_in_range (row col : Nat) (hrow : row ≤ 254)
    (hcol : col ≤ 25) :
    ∃ s, tileToString ⟨row, col⟩ = some s ∧
      tileFromStr s = some (Except.ok ⟨row, col⟩) := by
  refine ⟨(col + 97) :: natDecimalBytes (row + 1), ?_, ?_⟩
  · have h1 : col + 97 ≤ 255 := by omega
    have h2 : row + 1 ≤ 255 := by omega
    have h3 : col + 97 ≤ 127 := by omega
    simp [tileToString, charUtf8, h1, h2, h3]
  · have hb1 : 97 ≤ col + 97 := by omega
    have hb2 : col + 97 ≤ 122 := by omega
    have hp := parseU8_natDecimalBytes (row + 1) (by omega) (by omega)
    simp [tileFromStr, hb1, hb2, hp]

/-- Claim C6 witness: the tile at row 7, column 0 renders and re-parses
to itself. -/
theorem fromStr_of_toString_in_range_witness :
    7 ≤ 254 ∧ 0 ≤ 25 ∧
    ∃ s, tileToString ⟨7, 0⟩ = some s ∧
      tileFromStr s = some (Except.ok ⟨7, 0⟩) :=
  ⟨by decide, by decide, fromStr_of_toString_in_range 7 0 (by decide) (by decide)⟩

/-- Claim C8 counterexample: the public constructors do reach a King
paired with Attacker — `Piece::new(King, Attacker)` builds it, and
`TryFrom<char>` parses lowercase `'k'` to exactly that piece. -/
theorem attacker_king_constructible :
    (Piece.new .King .Attacker).piece_type = .King ∧
    (Piece.new .King .Attacker).side = .Attacker ∧
    pieceTryFromChar 'k' = .ok (Piece.new .King .Attacker) := by
  decide

/-- Claim C8 as amended: `Piece::king()` and `Piece::defender` always
produce Defender-side pieces, and uppercase `'K'` parses to the Defender
king; but `Piece::new`, `Piece::attacker` and lowercase `'k'` produce a
King with side Attacker, so the King-is-Defender pairing is not enforced
by the `Piece` constructors. -/
theorem king_pairing_by_constructor :
    Piece.king.side = .Defender ∧
    (∀ pt, (Piece.defender pt).side = .Defender) ∧
    pieceTryFromChar 'K' = .ok (Piece.new .King .Defender) ∧
    pieceTryFromChar 'k' = .ok (Piece.new .King .Attacker) ∧
    (Piece.new .King .Attacker).side = .Attacker ∧
    (Piece.attacker .King).side = .Attacker :=
  ⟨rfl, fun _ => rfl, by decide, by decide, rfl, rfl⟩

/-- Claim C9: `PieceSet::from_piece_types([King, Soldier, Guard])`
contains King, Soldier and Guard of both sides and excludes Commander,
Knight and Mercenary of both sides; `unset_piece(Piece::new(King,
Attacker))` then removes exactly the Attacker King, keeping the Defender
King and leaving every other membership unchanged. -/
theorem pieceSet_membership_classification :
    (∀ s, kingSoldierGuard.contains (Piece.new .King s) = true ∧
          kingSoldierGuard.contains (Piece.new .Soldier s) = true ∧
          kingSoldierGuard.contains (Piece.new .Guard s) = true ∧
          kingSoldierGuard.contains (Piece.new .Commander s) = false ∧
          kingSoldierGuard.contains (Piece.new .Knight s) = false ∧
          kingSoldierGuard.contains (Piece.new .Mercenary s) = false) ∧
    kingSoldierGuardNoAK.contains (Piece.new .King .Attacker) = false ∧
    kingSoldierGuardNoAK.contains (Piece.new .King .Defender) = true ∧
    (∀ pt s, (pt = .King ∧ s = .Attacker) ∨
      kingSoldierGuardNoAK.contains (Piece.new pt s) =
        kingSoldierGuard.contains (Piece.new pt s)) := by
  refine ⟨fun s => ?_, by decide, by decide, fun pt s => ?_⟩
  · cases s <;> decide
  · cases pt <;> cases s <;> decide

/-- Claim C10: `track_play` never touches the opposite side's state —
for every tracker state and every `(side, play, captures)` input, the
non-mover's repetition counter and mid-pair flag are unchanged. -/
theorem trackPlay_frames_opponent_state (t : RepetitionTracker) (side : Side)
    (play : Play) (captures : Bool) :
    (t.track_play side play captures).get_repetitions side.other =
      t.get_repetitions side.other ∧
    (t.track_play side play captures).is_mid_pair side.other =
      t.is_mid_pair side.other := by
  rcases t with ⟨a, d, am, dm, q⟩
  rcases eq_or_ne (some (⟨side, play, captures⟩ : ShortPlayRecord))
    (FixedSizeQueue4.first q) with h | h <;>
  cases side <;> cases captures <;> cases am <;> cases dm <;>
  simp_all [RepetitionTracker.track_play, RepetitionTracker.check_repetition,
    RepetitionTracker.get_repetitions, RepetitionTracker.is_mid_pair,
    RepetitionTracker.toggle_mid_pair, Side.other]

end Hnefatafl
